import Mathlib

/-!
Shallow embedding of the event-distribution core of the Extensional-Agent
repository, and proofs about it.

Embedded modules:
* `extensional_agent/schemas.py`      — the data model (`AgentEvent`, `ExecutionRecord`, …)
* `extensional_agent/agent_sdk.py`    — the emission gateway (`emit_event`, `ExecutionContext`)
* `extensional_agent/message_consumer.py` — the consumer contract (`_safe_callback`)
* `examples/virtual_consumer.py`      — the in-memory ring backend (`VirtualConsumer`)
* `examples/persistent_consumer.py`   — the durable batched backend (`PersistentConsumer`)

Modelling conventions:
* Python `int` is embedded as `Int`; subscription tokens (always positive,
  starting at 1) as `Nat`.
* Wall-clock readings (`time.time()`, `datetime.now()`) are passed in as
  explicit parameters (`now`), since the code only compares / stores them.
* A Python iterator (`ctx.seq`) is embedded as the list of values it has
  still to yield; `next()` takes the head, an empty list is exhaustion
  (`StopIteration`).
* Exceptions that the code can observe are made explicit: a disk write in
  the durable backend either succeeds or raises, modelled by a
  `writeOk : String → Bool` oracle indexed by run id; a subscriber callback
  either returns or raises, modelled by `Except String Unit`.
* Dictionaries keyed by run id become total functions `String → _` with the
  `defaultdict` default, or `String → Option _` where the code distinguishes
  a missing key (`dict.get`, file existence).
-/

/-! ## Data model (`extensional_agent/schemas.py`) -/

/-- The `Role` enum from `schemas.py`. -/
inductive Role
  | assistant
  | tool
deriving DecidableEq, Repr

/-- The `ToolCall` model from `schemas.py`; `args` is an opaque JSON-like dict,
embedded as key/value string pairs. -/
structure ToolCall where
  name : String
  args : List (String × String)
deriving DecidableEq, Repr

/-- The `ExecutionRecord` model from `schemas.py`.  The `id` field (a UUID) is
kept as its string form; `content` (str | dict) is kept as an optional
string, the dict case being irrelevant to every property proved here. -/
structure ExecutionRecord where
  id : String
  index : Int
  role : Role
  reasoning_content : Option String := none
  content : Option String := none
  tool_call : Option ToolCall := none
  is_stop : Bool
deriving DecidableEq, Repr

/-- The `AgentEvent` model from `schemas.py`: the immutable event envelope. -/
structure AgentEvent where
  v : Int := 1
  run_id : String
  seq : Int
  timestamp : String
  agent : String
  execution_record : ExecutionRecord
deriving DecidableEq, Repr

/-- A throwaway record used only as `Inhabited` default. -/
def defaultRecord : ExecutionRecord :=
  { id := "", index := 0, role := Role.assistant, is_stop := false }

instance : Inhabited AgentEvent :=
  ⟨{ run_id := "", seq := 0, timestamp := "", agent := "",
     execution_record := defaultRecord }⟩

/-- Result type of `emit_event`: `Union[AgentEvent, EmitEventWarning]`. -/
inductive EmitResult
  | event (e : AgentEvent)
  | warning (w : String)
deriving DecidableEq, Repr

/-- Does an `EmitResult` carry an event (as opposed to a warning)? -/
def EmitResult.isEvent : EmitResult → Bool
  | .event _ => true
  | .warning _ => false

/-! ## Emission gateway (`extensional_agent/agent_sdk.py`) -/

/-- The `ExecutionContext` from `agent_sdk.py`.  The bound consumer (`vc`) is
not part of the state here: `emit_event` below returns the event it
dispatches to `vc.publish` (fire-and-forget), so the consumer side is
studied separately on the consumer models. -/
structure ExecutionContext where
  run_id : String
  agent_name : String
  seq : List Int
  first_seq : Option Int := none
  last_seq : Option Int := none
deriving DecidableEq, Repr

/-- Python's `(x or 0)` on `Optional[int]`: `None` and `0` are falsy. -/
def py_or_zero : Option Int → Int
  | none => 0
  | some n => if n = 0 then 0 else n

/-- The active-context branch of `emit_event` (`agent_sdk.py` lines 84–119):
draw the next `seq` (recovering from `StopIteration` with
`(ctx.last_seq or 0) + 1`), build the event, update the
`first_seq`/`last_seq` watermarks, and hand the event to the dispatched
`publish`.  Returns the updated context and the built event. -/
def emit_with_ctx (ctx : ExecutionContext) (now : String)
    (rec : ExecutionRecord) (version : Int) :
    ExecutionContext × AgentEvent :=
  let seqPair : Int × List Int :=
    match ctx.seq with
    | [] => (py_or_zero ctx.last_seq + 1, [])
    | x :: xs => (x, xs)
  let seq_value := seqPair.1
  let event : AgentEvent :=
    { v := version, run_id := ctx.run_id, seq := seq_value, timestamp := now,
      agent := ctx.agent_name, execution_record := rec }
  let ctx' : ExecutionContext :=
    { ctx with
      seq := seqPair.2
      first_seq := if ctx.first_seq = none then some seq_value else ctx.first_seq
      last_seq := some seq_value }
  (ctx', event)

/-- The `emit_event` from `agent_sdk.py`: with no active context it returns the
`no_execution_context` warning and does nothing else; with a context it
runs `emit_with_ctx` and dispatches the event.  The third component is the
event handed to `consumer.publish` (`none` = no publish dispatched). -/
def emit_event (ctx? : Option ExecutionContext) (now : String)
    (rec : ExecutionRecord) (version : Int) :
    Option ExecutionContext × EmitResult × Option AgentEvent :=
  match ctx? with
  | none => (none, EmitResult.warning "no_execution_context", none)
  | some ctx =>
    let r := emit_with_ctx ctx now rec version
    (some r.1, EmitResult.event r.2, some r.2)

/-- Iterate `emit_with_ctx` over a list of (timestamp, record) inputs,
collecting the emitted events. -/
def emitMany (ctx : ExecutionContext) :
    List (String × ExecutionRecord) → ExecutionContext × List AgentEvent
  | [] => (ctx, [])
  | (t, r) :: rest =>
    let p := emit_with_ctx ctx t r 1
    let q := emitMany p.1 rest
    (q.1, p.2 :: q.2)

/-- The `seq` values of the events emitted by a run of `emitMany`. -/
def emittedSeqs (ctx : ExecutionContext)
    (inputs : List (String × ExecutionRecord)) : List Int :=
  ((emitMany ctx inputs).2).map AgentEvent.seq

/-! ## Consumer contract (`extensional_agent/message_consumer.py`) -/

/-- An `AsyncCallback` (`message_consumer.py`): a subscriber callback which,
when invoked on an event, either returns (`ok`) or raises (`error`). -/
abbrev AsyncCallback : Type := AgentEvent → Except String Unit

/-- The `MessageConsumer._safe_callback`: run the callback inside
`try: ... except Exception: pass`, so a raising callback is swallowed and
the wrapper always returns normally. -/
def safe_callback (cb : AsyncCallback) (e : AgentEvent) : Except String Unit :=
  match cb e with
  | Except.ok _ => Except.ok ()
  | Except.error _ => Except.ok ()

/-- The method `append` of `collections.deque` with maxlen `cap`: append on the right, dropping
from the left whatever exceeds the capacity. -/
def dequeAppend (cap : Nat) (xs : List AgentEvent) (x : AgentEvent) : List AgentEvent :=
  let ys := xs ++ [x]
  ys.drop (ys.length - cap)

/-- The last `cap` elements of a list: what a bounded deque retains of a
stream of appends. -/
def lastN (cap : Nat) (xs : List AgentEvent) : List AgentEvent :=
  xs.drop (xs.length - cap)

/-! ## In-memory ring backend (`examples/virtual_consumer.py`) -/

namespace VirtualConsumer

/-- The mutable state of a `VirtualConsumer` instance.  `_events` is the
per-run bounded deque table (`None` = run id never touched by `publish`);
`_subscribers` is the per-run token → callback dict, kept in insertion
order; `_next_token` starts at 1. -/
structure State where
  max_per_run : Nat
  events : String → Option (List AgentEvent)
  subscribers : String → List (Nat × AsyncCallback)
  next_token : Nat

/-- A freshly constructed `VirtualConsumer(max_per_run)`. -/
def init (max_per_run : Nat) : State :=
  { max_per_run := max_per_run
    events := fun _ => none
    subscribers := fun _ => []
    next_token := 1 }

/-- The `VirtualConsumer.publish`: append to the run's bounded deque, then hand
the event to every currently subscribed callback through `_safe_callback`
(each dispatched independently via `create_task`).  The second component
records, per token, the outcome of its `_safe_callback` invocation. -/
def publish (s : State) (e : AgentEvent) :
    State × List (Nat × Except String Unit) :=
  let run_id := e.run_id
  let q := dequeAppend s.max_per_run ((s.events run_id).getD []) e
  let deliveries := (s.subscribers run_id).map (fun p => (p.1, safe_callback p.2 e))
  ({ s with events := fun r => if r = run_id then some q else s.events r },
   deliveries)

/-- The `VirtualConsumer.subscribe`: hand out `_next_token`, bump it, record the
callback under the run id. -/
def subscribe (s : State) (run_id : String) (cb : AsyncCallback) : State × Nat :=
  ({ s with
      next_token := s.next_token + 1
      subscribers := fun r =>
        if r = run_id then s.subscribers run_id ++ [(s.next_token, cb)]
        else s.subscribers r },
   s.next_token)

/-- The `VirtualConsumer.unsubscribe`: `dict.pop(token, None)` — drop the token
if present, no-op otherwise. -/
def unsubscribe (s : State) (run_id : String) (token : Nat) : State :=
  { s with
    subscribers := fun r =>
      if r = run_id then (s.subscribers run_id).filter (fun p => p.1 != token)
      else s.subscribers r }

/-- The `VirtualConsumer.get_events`: linear scan of the run's deque filtered by
`e.seq > after_seq` (`self._events.get(run_id, [])` for unknown runs). -/
def get_events (s : State) (run_id : String) (after_seq : Int) : List AgentEvent :=
  ((s.events run_id).getD []).filter (fun e => e.seq > after_seq)

/-- The `VirtualConsumer.cleanup`: drop the run's deque and subscriber table. -/
def cleanup (s : State) (run_id : String) : State :=
  { s with
    events := fun r => if r = run_id then none else s.events r
    subscribers := fun r => if r = run_id then [] else s.subscribers r }

/-- Iterate `publish` over a list of events (the fan-out results are
dropped; only the state evolves). -/
def publishAll (s : State) (evs : List AgentEvent) : State :=
  evs.foldl (fun s e => (publish s e).1) s

/-- One externally invocable operation on a `VirtualConsumer` instance. -/
inductive Op
  | publish (e : AgentEvent)
  | subscribe (run_id : String) (cb : AsyncCallback)
  | unsubscribe (run_id : String) (token : Nat)
  | cleanup (run_id : String)

/-- Apply one operation; the second component is the token returned when the
operation was a `subscribe`. -/
def step (s : State) : Op → State × Option Nat
  | Op.publish e => ((publish s e).1, none)
  | Op.subscribe run_id cb => let p := subscribe s run_id cb; (p.1, some p.2)
  | Op.unsubscribe run_id token => (unsubscribe s run_id token, none)
  | Op.cleanup run_id => (cleanup s run_id, none)

/-- Run a whole operation trace, collecting every token `subscribe` handed
out, in order. -/
def runOps (s : State) : List Op → State × List Nat
  | [] => (s, [])
  | op :: ops =>
    let p := step s op
    let q := runOps p.1 ops
    (q.1, p.2.toList ++ q.2)

end VirtualConsumer

/-! ## Durable batched backend (`examples/persistent_consumer.py`) -/

namespace PersistentConsumer

/-- The benign fragment of the per-run `.jsonl` line space: either the line
is a well-formed serialized event (every line `_flush_to_disk` itself
writes is one), or it is text on which the per-line parse raises
`json.JSONDecodeError` or `ValueError` — the two exception classes the
per-line handler catches — and which the reader therefore skips.  The
*full* line space, including the JSON-valid non-event lines on which the
read raises an uncaught exception instead, is `DiskLine` below. -/
inductive RawLine
  | valid (e : AgentEvent)
  | malformed (s : String)
deriving DecidableEq, Repr

/-- The mutable state of a `PersistentConsumer` instance.  `disk run_id`
models the file `storage_path/run_id.jsonl` (`none` = file absent);
`write_buffer` is the shared pending-write buffer `_write_buffer` (the
dicts it stores are faithful serializations of the events, so it is kept
as a list of events); `last_flush` is `_last_flush`. -/
structure State where
  max_memory_events : Nat
  batch_size : Nat
  flush_interval : Int
  memory_events : String → List AgentEvent
  subscribers : String → List (Nat × AsyncCallback)
  next_token : Nat
  write_buffer : List AgentEvent
  last_flush : Int
  disk : String → Option (List RawLine)

/-- A freshly constructed `PersistentConsumer` (construction time `t0`,
empty storage directory). -/
def init (max_memory_events batch_size : Nat) (flush_interval t0 : Int) : State :=
  { max_memory_events := max_memory_events
    batch_size := batch_size
    flush_interval := flush_interval
    memory_events := fun _ => []
    subscribers := fun _ => []
    next_token := 1
    write_buffer := []
    last_flush := t0
    disk := fun _ => none }

/-- The `PersistentConsumer._flush_to_disk`: nothing to do on an empty buffer;
otherwise group the buffered events by run id and append one batch per run
id to that run's file.  All per-run writes are attempted — `asyncio.gather`
schedules every write task concurrently and does not cancel the rest when
one raises — and each write either succeeds (`writeOk run_id = true`,
appending the serialized lines, creating the file if absent) or raises.
Only when every write succeeded does control reach the last two
statements, which clear `_write_buffer` and reset `_last_flush`; a failed
write propagates out of `asyncio.gather` first.  The `Bool` returned is
`true` iff the flush completed without raising. -/
def flush_to_disk (s : State) (writeOk : String → Bool) (now : Int) :
    State × Bool :=
  if s.write_buffer = [] then (s, true)
  else
    let runs := (s.write_buffer.map (fun e => e.run_id)).dedup
    let fileLines := fun r =>
      (s.write_buffer.filter (fun e => e.run_id = r)).map RawLine.valid
    let disk' := fun r =>
      if r ∈ runs ∧ writeOk r = true then some ((s.disk r).getD [] ++ fileLines r)
      else s.disk r
    if runs.all writeOk then
      ({ s with disk := disk', write_buffer := [], last_flush := now }, true)
    else
      ({ s with disk := disk' }, false)

/-- How a call to `PersistentConsumer.publish` ended: no flush condition
met, a flush that completed, or a flush whose disk write raised (the
exception then propagates out of `publish` and the subscriber fan-out is
skipped). -/
inductive FlushOutcome
  | noFlush
  | flushed
  | flushRaised
deriving DecidableEq, Repr

/-- The `PersistentConsumer.publish`: append to the run's bounded memory deque
and to the shared write buffer; then, if the buffer has reached
`batch_size` or `flush_interval` seconds have elapsed since `_last_flush`,
flush synchronously. -/
def publish (s : State) (e : AgentEvent) (now : Int) (writeOk : String → Bool) :
    State × FlushOutcome :=
  let run_id := e.run_id
  let s1 := { s with
    memory_events := fun r =>
      if r = run_id then dequeAppend s.max_memory_events (s.memory_events run_id) e
      else s.memory_events r
    write_buffer := s.write_buffer ++ [e] }
  if s1.write_buffer.length ≥ s.batch_size ∨ now - s.last_flush ≥ s.flush_interval then
    let p := flush_to_disk s1 writeOk now
    (p.1, if p.2 then FlushOutcome.flushed else FlushOutcome.flushRaised)
  else (s1, FlushOutcome.noFlush)

/-- The `PersistentConsumer.subscribe` (same token discipline as the virtual
backend). -/
def subscribe (s : State) (run_id : String) (cb : AsyncCallback) : State × Nat :=
  ({ s with
      next_token := s.next_token + 1
      subscribers := fun r =>
        if r = run_id then s.subscribers run_id ++ [(s.next_token, cb)]
        else s.subscribers r },
   s.next_token)

/-- The `PersistentConsumer.unsubscribe`: `dict.pop(token, None)`. -/
def unsubscribe (s : State) (run_id : String) (token : Nat) : State :=
  { s with
    subscribers := fun r =>
      if r = run_id then (s.subscribers run_id).filter (fun p => p.1 != token)
      else s.subscribers r }

/-- The per-line body of `PersistentConsumer._read_events_sync`: try to
parse the line; a parse failure (`json.JSONDecodeError`, `ValueError`) is
caught and yields nothing. -/
def parse_line : RawLine → Option AgentEvent
  | RawLine.valid e => some e
  | RawLine.malformed _ => none

/-- The `PersistentConsumer._read_events_sync` restricted to the benign
line fragment (`RawLine`): walk the file line by line, keeping each line
that parses and passes `seq > after_seq`, skipping the rest.  On this
fragment the read is total; the full behaviour, including the
uncaught-exception abort paths, is `read_events_sync_full` below, which
agrees with this function on benign files (`read_events_sync_full_benign`). -/
def read_events_sync (lines : List RawLine) (after_seq : Int) : List AgentEvent :=
  lines.filterMap (fun l =>
    match parse_line l with
    | some e => if e.seq > after_seq then some e else none
    | none => none)

/-- The `PersistentConsumer._load_from_disk`: an absent file yields `[]`,
otherwise the file is read with `_read_events_sync`. -/
def load_from_disk (s : State) (run_id : String) (after_seq : Int) :
    List AgentEvent :=
  match s.disk run_id with
  | none => []
  | some lines => read_events_sync lines after_seq

/-- Full classification of one line of a per-run `.jsonl` file by how the
reading pipeline of `_read_events_sync` / `get_events` treats it:

* `event e` — `json.loads` yields a well-formed serialized event dict
  (the only kind of line `_flush_to_disk` writes);
* `skipped s` — the parse raises `json.JSONDecodeError` (corrupted or
  truncated text, never valid JSON) or `int(d.get("seq", 0))` raises
  `ValueError` (e.g. a non-numeric string `seq`): caught by the per-line
  handler, the line is skipped;
* `readCrash s` — the line is valid JSON but not a dict (`event.get`
  raises `AttributeError`) or its `seq` has a type `int()` rejects with
  `TypeError` (e.g. `None`): *not* caught by the per-line handler, so
  `_read_events_sync` raises and the read aborts;
* `nonEvent k s` — a JSON dict with an `int`-coercible `seq` `k` that is
  not a well-formed event: it survives `_read_events_sync`, but
  `AgentEvent(**d)` later raises a pydantic `ValidationError` inside
  `get_events`, outside any handler. -/
inductive DiskLine
  | event (e : AgentEvent)
  | skipped (s : String)
  | readCrash (s : String)
  | nonEvent (k : Int) (s : String)
deriving DecidableEq, Repr

/-- One dict that `_read_events_sync` returns for a surviving line: either a
well-formed serialized event, or a non-event dict (kept with its coerced
`seq`) that will make the `AgentEvent(**d)` conversion raise later. -/
inductive ParsedDict
  | event (e : AgentEvent)
  | nonEvent (k : Int) (s : String)
deriving DecidableEq, Repr

/-- Full model of `PersistentConsumer._read_events_sync` over the whole line
space: lines are processed left to right; a `skipped` line contributes
nothing; a surviving dict is kept when its `seq` exceeds `after_seq`; a
`readCrash` line raises out of the whole read (`Except.error`), discarding
everything. -/
def read_events_sync_full : List DiskLine → Int → Except String (List ParsedDict)
  | [], _ => Except.ok []
  | DiskLine.event e :: rest, after_seq =>
    match read_events_sync_full rest after_seq with
    | Except.ok ds =>
      Except.ok (if e.seq > after_seq then ParsedDict.event e :: ds else ds)
    | Except.error msg => Except.error msg
  | DiskLine.skipped _ :: rest, after_seq => read_events_sync_full rest after_seq
  | DiskLine.readCrash msg :: _, _ => Except.error msg
  | DiskLine.nonEvent k s :: rest, after_seq =>
    match read_events_sync_full rest after_seq with
    | Except.ok ds =>
      Except.ok (if k > after_seq then ParsedDict.nonEvent k s :: ds else ds)
    | Except.error msg => Except.error msg

/-- The conversion `[AgentEvent(**d) for d in disk_event_dicts]` performed
by `get_events` (line 146), outside any handler: it raises a
`ValidationError` at the first dict that is not a well-formed event. -/
def toAgentEvents : List ParsedDict → Except String (List AgentEvent)
  | [] => Except.ok []
  | ParsedDict.event e :: rest =>
    match toAgentEvents rest with
    | Except.ok es => Except.ok (e :: es)
    | Except.error msg => Except.error msg
  | ParsedDict.nonEvent _ s :: _ => Except.error s

/-- The inclusion of the benign fragment into the full line space. -/
def embedLine : RawLine → DiskLine
  | RawLine.valid e => DiskLine.event e
  | RawLine.malformed s => DiskLine.skipped s

/-- Full model of `PersistentConsumer._load_from_disk`: an absent file
yields `[]`, otherwise the file is read with `read_events_sync_full` and
any exception it raises propagates. -/
def load_from_disk_full (lines? : Option (List DiskLine)) (after_seq : Int) :
    Except String (List ParsedDict) :=
  match lines? with
  | none => Except.ok []
  | some lines => read_events_sync_full lines after_seq

/-- The key list of the Python dict `{e.seq: e for e in es}`: each distinct
`seq`, once.  (Only the key *set* matters: `get_events` sorts the keys.) -/
def seqKeys (es : List AgentEvent) : List Int :=
  (es.map (fun e => e.seq)).dedup

/-- Indexing the Python dict `{e.seq: e for e in es}` at key `k`: the value
stored for `k` is the *last* element of `es` whose `seq` is `k` (later
comprehension iterations overwrite earlier ones). -/
def seqDictGet (es : List AgentEvent) (k : Int) : AgentEvent :=
  (((es.filter (fun e => e.seq = k)).getLast?).getD default)

/-- The `PersistentConsumer.get_events`: filter the memory cache by
`seq > after_seq`; if the filtered cache is non-empty and its first entry
has `seq ≤ after_seq + 1`, return it as is; otherwise replay the disk log,
build the dict `{e.seq: e for e in disk_events + memory_events}` and list
its values in ascending key order, keeping keys `> after_seq`. -/
def get_events (s : State) (run_id : String) (after_seq : Int) :
    List AgentEvent :=
  let memory_events := (s.memory_events run_id).filter (fun e => e.seq > after_seq)
  let useCache : Bool :=
    match memory_events.head? with
    | some e0 => e0.seq ≤ after_seq + 1
    | none => false
  if useCache then memory_events
  else
    let disk_events := load_from_disk s run_id after_seq
    let merged := disk_events ++ memory_events
    let sortedKeys := (seqKeys merged).insertionSort (· ≤ ·)
    (sortedKeys.filter (fun k => k > after_seq)).map (seqDictGet merged)

/-- Full model of `PersistentConsumer.get_events` over the whole line
space, for a run whose memory cache holds `mem` and whose log file is
`lines?`: identical to `get_events` except that the exceptions raised by
`_read_events_sync` (uncaught `AttributeError`/`TypeError` on a
`readCrash` line) and by the `AgentEvent(**d)` conversion (pydantic
`ValidationError` on a `nonEvent` dict) propagate to the caller instead of
being impossible. -/
def get_events_full (mem : List AgentEvent) (lines? : Option (List DiskLine))
    (after_seq : Int) : Except String (List AgentEvent) :=
  let memory_events := mem.filter (fun e => e.seq > after_seq)
  let useCache : Bool :=
    match memory_events.head? with
    | some e0 => e0.seq ≤ after_seq + 1
    | none => false
  if useCache then Except.ok memory_events
  else
    match load_from_disk_full lines? after_seq with
    | Except.error msg => Except.error msg
    | Except.ok disk_event_dicts =>
      match toAgentEvents disk_event_dicts with
      | Except.error msg => Except.error msg
      | Except.ok disk_events =>
        let merged := disk_events ++ memory_events
        let sortedKeys := (seqKeys merged).insertionSort (· ≤ ·)
        Except.ok ((sortedKeys.filter (fun k => k > after_seq)).map (seqDictGet merged))

/-- The `PersistentConsumer.cleanup`: drop the run's memory cache and
subscribers and delete its log file. -/
def cleanup (s : State) (run_id : String) : State :=
  { s with
    memory_events := fun r => if r = run_id then [] else s.memory_events r
    subscribers := fun r => if r = run_id then [] else s.subscribers r
    disk := fun r => if r = run_id then none else s.disk r }

/-- One externally invocable operation on a `PersistentConsumer` instance
(`publish` carries the wall-clock reading and the disk-write oracle of
that call). -/
inductive Op
  | publish (e : AgentEvent) (now : Int) (writeOk : String → Bool)
  | subscribe (run_id : String) (cb : AsyncCallback)
  | unsubscribe (run_id : String) (token : Nat)
  | cleanup (run_id : String)

/-- Iterate `publish` over a list of (event, wall-clock, write-oracle)
triples, collecting each call's `FlushOutcome`. -/
def publishAll (s : State) :
    List (AgentEvent × Int × (String → Bool)) → State × List FlushOutcome
  | [] => (s, [])
  | (e, now, wk) :: rest =>
    let p := publish s e now wk
    let q := publishAll p.1 rest
    (q.1, p.2 :: q.2)

/-- Apply one operation; the second component is the token returned when the
operation was a `subscribe`. -/
def step (s : State) : Op → State × Option Nat
  | Op.publish e now writeOk => ((publish s e now writeOk).1, none)
  | Op.subscribe run_id cb => let p := subscribe s run_id cb; (p.1, some p.2)
  | Op.unsubscribe run_id token => (unsubscribe s run_id token, none)
  | Op.cleanup run_id => (cleanup s run_id, none)

/-- Run a whole operation trace, collecting every token `subscribe` handed
out, in order. -/
def runOps (s : State) : List Op → State × List Nat
  | [] => (s, [])
  | op :: ops =>
    let p := step s op
    let q := runOps p.1 ops
    (q.1, p.2.toList ++ q.2)

end PersistentConsumer

/-! ## Theorems -/

theorem py_or_zero_some (n : Int) : py_or_zero (some n) = n := by
  by_cases h : n = 0 <;> simp [py_or_zero, h]

theorem py_or_zero_eq_getD (o : Option Int) : py_or_zero o = o.getD 0 := by
  cases o with
  | none => rfl
  | some n => simpa using py_or_zero_some n

/-- The sequencing invariant: the values the iterator has still to yield are
strictly increasing and all above the current watermark. -/
def SeqInv (ctx : ExecutionContext) : Prop :=
  ctx.seq.Chain' (· < ·) ∧ ∀ x ∈ ctx.seq, py_or_zero ctx.last_seq < x

theorem emit_with_ctx_seq_gt (ctx : ExecutionContext) (now : String)
    (rec : ExecutionRecord) (v : Int) (hinv : SeqInv ctx) :
    py_or_zero ctx.last_seq < (emit_with_ctx ctx now rec v).2.seq := by
  obtain ⟨-, h2⟩ := hinv
  cases hseq : ctx.seq with
  | nil => simp [emit_with_ctx, hseq]
  | cons x xs =>
    have := h2 x (by rw [hseq]; exact List.mem_cons_self x xs)
    simpa [emit_with_ctx, hseq] using this

theorem emit_with_ctx_preserves_inv (ctx : ExecutionContext) (now : String)
    (rec : ExecutionRecord) (v : Int) (hinv : SeqInv ctx) :
    SeqInv (emit_with_ctx ctx now rec v).1 := by
  obtain ⟨h1, h2⟩ := hinv
  cases hseq : ctx.seq with
  | nil =>
    constructor <;> simp [emit_with_ctx, hseq]
  | cons x xs =>
    rw [hseq] at h1
    constructor
    · simpa [emit_with_ctx, hseq] using h1.tail
    · intro y hy
      simp only [emit_with_ctx, hseq] at hy ⊢
      have hxy : x < y :=
        (List.pairwise_cons.mp (List.chain'_iff_pairwise.mp h1)).1 y hy
      rw [py_or_zero_some]
      exact hxy

theorem emit_with_ctx_last_seq (ctx : ExecutionContext) (now : String)
    (rec : ExecutionRecord) (v : Int) :
    (emit_with_ctx ctx now rec v).1.last_seq =
      some (emit_with_ctx ctx now rec v).2.seq := by
  cases hseq : ctx.seq <;> simp [emit_with_ctx, hseq]

theorem emitMany_chain (inputs : List (String × ExecutionRecord)) :
    ∀ ctx : ExecutionContext, SeqInv ctx →
      List.Chain' (· < ·) (py_or_zero ctx.last_seq :: emittedSeqs ctx inputs) := by
  induction inputs with
  | nil => intro ctx _; simp [emittedSeqs, emitMany]
  | cons p rest ih =>
    intro ctx hinv
    obtain ⟨t, r⟩ := p
    have hgt := emit_with_ctx_seq_gt ctx t r 1 hinv
    have hinv' := emit_with_ctx_preserves_inv ctx t r 1 hinv
    have hlast := emit_with_ctx_last_seq ctx t r 1
    have htail := ih (emit_with_ctx ctx t r 1).1 hinv'
    rw [hlast, py_or_zero_some] at htail
    have hs : emittedSeqs ctx ((t, r) :: rest) =
        (emit_with_ctx ctx t r 1).2.seq ::
          emittedSeqs (emit_with_ctx ctx t r 1).1 rest := by
      simp [emittedSeqs, emitMany]
    rw [hs]
    exact List.chain'_cons.mpr ⟨hgt, htail⟩

theorem safe_callback_ok (cb : AsyncCallback) (e : AgentEvent) :
    safe_callback cb e = Except.ok () := by
  unfold safe_callback
  cases cb e <;> rfl

/-- C8: calling `emit_event` while no execution context is active returns the
`no_execution_context` warning value rather than an event, never throws (the
embedding is a total function), and performs no sequencing, watermark update,
or publish dispatch: the context stays `none` and no event is handed to
`publish`. -/
theorem c8_emit_no_context (now : String) (rec : ExecutionRecord) (version : Int) :
    emit_event none now rec version =
      (none, EmitResult.warning "no_execution_context", none) := rfl

/-- C6: a subscriber callback that raises during fan-out is swallowed by
`_safe_callback` (it returns normally even when the callback errors), so
`publish` raises nothing to the producer; every subscriber of the run —
including every healthy one — still has its callback invoked on the event,
and the event is still appended to the run's buffer, so later publishes
proceed from the updated state. -/
theorem c6_callback_isolation (s : VirtualConsumer.State) (e : AgentEvent) :
    ((VirtualConsumer.publish s e).2
       = (s.subscribers e.run_id).map (fun p => (p.1, Except.ok ())))
    ∧ (∀ (cb : AsyncCallback) (msg : String), cb e = Except.error msg →
         safe_callback cb e = Except.ok ())
    ∧ ((VirtualConsumer.publish s e).1.events e.run_id
         = some (dequeAppend s.max_per_run ((s.events e.run_id).getD []) e)) := by
  refine ⟨?_, fun cb msg _ => safe_callback_ok cb e, ?_⟩
  · simp [VirtualConsumer.publish, safe_callback_ok]
  · simp [VirtualConsumer.publish]

theorem c6_witness :
    safe_callback (fun _ => Except.error "boom")
        { run_id := "r1", seq := 1, timestamp := "t", agent := "a",
          execution_record := defaultRecord } = Except.ok () :=
  (c6_callback_isolation (VirtualConsumer.init 5)
      { run_id := "r1", seq := 1, timestamp := "t", agent := "a",
        execution_record := defaultRecord }).2.1
    (fun _ => Except.error "boom") "boom" rfl

/-- C9: for a run id for which no event was ever published, `get_events`
returns the empty sequence and never raises, on both backends — for the
durable backend even though no on-disk log file exists for that run id. -/
theorem c9_unknown_run_empty (run : String) :
    (∀ s : VirtualConsumer.State, s.events run = none →
        VirtualConsumer.get_events s run 0 = [])
    ∧ (∀ s : PersistentConsumer.State, s.memory_events run = [] →
        s.disk run = none → PersistentConsumer.get_events s run 0 = []) := by
  constructor
  · intro s h
    simp [VirtualConsumer.get_events, h]
  · intro s hmem hdisk
    simp [PersistentConsumer.get_events, hmem, PersistentConsumer.load_from_disk,
      hdisk, PersistentConsumer.seqKeys]

theorem c9_witness :
    VirtualConsumer.get_events (VirtualConsumer.init 5000) "ghost" 0 = []
    ∧ PersistentConsumer.get_events (PersistentConsumer.init 1000 100 10 0) "ghost" 0 = [] :=
  ⟨(c9_unknown_run_empty "ghost").1 (VirtualConsumer.init 5000) rfl,
   (c9_unknown_run_empty "ghost").2 (PersistentConsumer.init 1000 100 10 0) rfl rfl⟩

theorem vc_step_next_token_mono (s : VirtualConsumer.State) (op : VirtualConsumer.Op) :
    s.next_token ≤ ((VirtualConsumer.step s op).1).next_token := by
  cases op <;>
    simp [VirtualConsumer.step, VirtualConsumer.publish, VirtualConsumer.subscribe,
      VirtualConsumer.unsubscribe, VirtualConsumer.cleanup]

theorem vc_runOps_tokens_lb (ops : List VirtualConsumer.Op) :
    ∀ (s : VirtualConsumer.State) (t : Nat),
      t ∈ (VirtualConsumer.runOps s ops).2 → s.next_token ≤ t := by
  induction ops with
  | nil =>
    intro s t ht
    simp [VirtualConsumer.runOps] at ht
  | cons op rest ih =>
    intro s t ht
    have hsplit : (VirtualConsumer.runOps s (op :: rest)).2 =
        ((VirtualConsumer.step s op).2).toList ++
          (VirtualConsumer.runOps ((VirtualConsumer.step s op).1) rest).2 := rfl
    rw [hsplit] at ht
    rcases List.mem_append.mp ht with h | h
    · cases op with
      | subscribe run_id cb =>
        simp [VirtualConsumer.step, VirtualConsumer.subscribe] at h
        omega
      | publish e => simp [VirtualConsumer.step] at h
      | unsubscribe run_id token => simp [VirtualConsumer.step] at h
      | cleanup run_id => simp [VirtualConsumer.step] at h
    · exact le_trans (vc_step_next_token_mono s op) (ih _ t h)

theorem vc_runOps_pairwise (ops : List VirtualConsumer.Op) :
    ∀ s : VirtualConsumer.State,
      List.Pairwise (· < ·) ((VirtualConsumer.runOps s ops).2) := by
  induction ops with
  | nil => intro s; simp [VirtualConsumer.runOps]
  | cons op rest ih =>
    intro s
    have hsplit : (VirtualConsumer.runOps s (op :: rest)).2 =
        ((VirtualConsumer.step s op).2).toList ++
          (VirtualConsumer.runOps ((VirtualConsumer.step s op).1) rest).2 := rfl
    rw [hsplit]
    cases op with
    | subscribe run_id cb =>
      refine List.pairwise_cons.mpr ⟨?_, ih _⟩
      intro t ht
      have hlb := vc_runOps_tokens_lb rest _ t ht
      have h1 : ((VirtualConsumer.step s (VirtualConsumer.Op.subscribe run_id cb)).1).next_token
          = s.next_token + 1 := rfl
      have h2 : (VirtualConsumer.subscribe s run_id cb).2 = s.next_token := rfl
      omega
    | publish e => simpa using ih _
    | unsubscribe run_id token => simpa using ih _
    | cleanup run_id => simpa using ih _

theorem pc_flush_next_token (s : PersistentConsumer.State) (wk : String → Bool)
    (now : Int) :
    ((PersistentConsumer.flush_to_disk s wk now).1).next_token = s.next_token := by
  unfold PersistentConsumer.flush_to_disk
  split
  · rfl
  · dsimp only
    split <;> rfl

theorem pc_publish_next_token (s : PersistentConsumer.State) (e : AgentEvent)
    (now : Int) (wk : String → Bool) :
    ((PersistentConsumer.publish s e now wk).1).next_token = s.next_token := by
  unfold PersistentConsumer.publish
  dsimp only
  split
  · exact pc_flush_next_token _ wk now
  · rfl

theorem pc_step_next_token_mono (s : PersistentConsumer.State)
    (op : PersistentConsumer.Op) :
    s.next_token ≤ ((PersistentConsumer.step s op).1).next_token := by
  cases op with
  | publish e now wk =>
    have := pc_publish_next_token s e now wk
    simp [PersistentConsumer.step, this]
  | subscribe run_id cb =>
    simp [PersistentConsumer.step, PersistentConsumer.subscribe]
  | unsubscribe run_id token =>
    simp [PersistentConsumer.step, PersistentConsumer.unsubscribe]
  | cleanup run_id =>
    simp [PersistentConsumer.step, PersistentConsumer.cleanup]

theorem pc_runOps_tokens_lb (ops : List PersistentConsumer.Op) :
    ∀ (s : PersistentConsumer.State) (t : Nat),
      t ∈ (PersistentConsumer.runOps s ops).2 → s.next_token ≤ t := by
  induction ops with
  | nil =>
    intro s t ht
    simp [PersistentConsumer.runOps] at ht
  | cons op rest ih =>
    intro s t ht
    have hsplit : (PersistentConsumer.runOps s (op :: rest)).2 =
        ((PersistentConsumer.step s op).2).toList ++
          (PersistentConsumer.runOps ((PersistentConsumer.step s op).1) rest).2 := rfl
    rw [hsplit] at ht
    rcases List.mem_append.mp ht with h | h
    · cases op with
      | subscribe run_id cb =>
        simp [PersistentConsumer.step, PersistentConsumer.subscribe] at h
        omega
      | publish e now wk => simp [PersistentConsumer.step] at h
      | unsubscribe run_id token => simp [PersistentConsumer.step] at h
      | cleanup run_id => simp [PersistentConsumer.step] at h
    · exact le_trans (pc_step_next_token_mono s op) (ih _ t h)

theorem pc_runOps_pairwise (ops : List PersistentConsumer.Op) :
    ∀ s : PersistentConsumer.State,
      List.Pairwise (· < ·) ((PersistentConsumer.runOps s ops).2) := by
  induction ops with
  | nil => intro s; simp [PersistentConsumer.runOps]
  | cons op rest ih =>
    intro s
    have hsplit : (PersistentConsumer.runOps s (op :: rest)).2 =
        ((PersistentConsumer.step s op).2).toList ++
          (PersistentConsumer.runOps ((PersistentConsumer.step s op).1) rest).2 := rfl
    rw [hsplit]
    cases op with
    | subscribe run_id cb =>
      refine List.pairwise_cons.mpr ⟨?_, ih _⟩
      intro t ht
      have hlb := pc_runOps_tokens_lb rest _ t ht
      have h1 : ((PersistentConsumer.step s
          (PersistentConsumer.Op.subscribe run_id cb)).1).next_token
          = s.next_token + 1 := rfl
      have h2 : (PersistentConsumer.subscribe s run_id cb).2 = s.next_token := rfl
      omega
    | publish e now wk => simpa using ih _
    | unsubscribe run_id token => simpa using ih _
    | cleanup run_id => simpa using ih _

/-- C10: on either backend, over any trace of operations on one freshly
constructed consumer instance, the tokens handed out by `subscribe` are
pairwise strictly increasing in order of issue, across all run ids — so
every `subscribe` call returns a token strictly greater than every token
previously returned by that instance, tokens are never reused (not even
after `unsubscribe` or `cleanup`), and all tokens ever issued are pairwise
distinct. -/
theorem c10_tokens_strictly_increasing :
    (∀ (cap : Nat) (ops : List VirtualConsumer.Op),
        List.Pairwise (· < ·) ((VirtualConsumer.runOps (VirtualConsumer.init cap) ops).2))
    ∧ (∀ (m b : Nat) (fi t0 : Int) (ops : List PersistentConsumer.Op),
        List.Pairwise (· < ·)
          ((PersistentConsumer.runOps (PersistentConsumer.init m b fi t0) ops).2)) :=
  ⟨fun _ ops => vc_runOps_pairwise ops _, fun _ _ _ _ ops => pc_runOps_pairwise ops _⟩

/-- C2: for a run context whose remaining `seq` iterator values are strictly
increasing and above the current watermark (as holds for the
`iter(range(1, 10**9))` iterator the runner installs), successive calls to
the emission path return events whose `seq` values are strictly increasing
with no duplicates; every call with an active context returns an event
(never a warning or an exception); and when the iterator is exhausted the
emitted `seq` is silently `last_seq + 1` (`1` when no event has yet been
emitted), with emission continuing normally. -/
theorem c2_seq_strictly_increasing :
    (∀ (ctx : ExecutionContext) (inputs : List (String × ExecutionRecord)),
        ctx.seq.Chain' (· < ·) →
        (∀ x ∈ ctx.seq, py_or_zero ctx.last_seq < x) →
        List.Pairwise (· < ·) (emittedSeqs ctx inputs))
    ∧ (∀ (ctx : ExecutionContext) (now : String) (rec : ExecutionRecord) (v : Int),
        ((emit_event (some ctx) now rec v).2.1).isEvent = true)
    ∧ (∀ (ctx : ExecutionContext) (now : String) (rec : ExecutionRecord) (v : Int),
        ctx.seq = [] →
        ∃ e : AgentEvent,
          (emit_event (some ctx) now rec v).2 = (EmitResult.event e, some e)
          ∧ e.seq = ctx.last_seq.getD 0 + 1) := by
  refine ⟨?_, ?_, ?_⟩
  · intro ctx inputs h1 h2
    have h := emitMany_chain inputs ctx ⟨h1, h2⟩
    exact List.chain'_iff_pairwise.mp h.tail
  · intro ctx now rec v
    simp [emit_event, EmitResult.isEvent]
  · intro ctx now rec v hseq
    refine ⟨{ v := v, run_id := ctx.run_id, seq := py_or_zero ctx.last_seq + 1,
              timestamp := now, agent := ctx.agent_name, execution_record := rec },
            ?_, ?_⟩
    · simp [emit_event, emit_with_ctx, hseq]
    · simp [py_or_zero_eq_getD]

theorem c2_witness :
    (List.Pairwise (· < ·)
      (emittedSeqs
        { run_id := "r1", agent_name := "a", seq := [1, 2],
          first_seq := none, last_seq := none }
        [("t1", defaultRecord), ("t2", defaultRecord), ("t3", defaultRecord)]))
    ∧ (∃ e : AgentEvent,
        (emit_event
            (some { run_id := "r1", agent_name := "a", seq := ([] : List Int),
                    first_seq := some 1, last_seq := some 7 })
            "t4" defaultRecord 1).2
          = (EmitResult.event e, some e)
        ∧ e.seq = (some (7 : Int)).getD 0 + 1) :=
  ⟨c2_seq_strictly_increasing.1 _ _
      (List.chain'_cons.mpr ⟨by norm_num, List.chain'_singleton 2⟩) (by decide),
   c2_seq_strictly_increasing.2.2 _ "t4" defaultRecord 1 rfl⟩

theorem pc_publish_noFlush (s : PersistentConsumer.State) (e : AgentEvent)
    (now : Int) (wk : String → Bool)
    (hlen : s.write_buffer.length + 1 < s.batch_size)
    (ht : now - s.last_flush < s.flush_interval) :
    (PersistentConsumer.publish s e now wk).2 = PersistentConsumer.FlushOutcome.noFlush
    ∧ ((PersistentConsumer.publish s e now wk).1).write_buffer = s.write_buffer ++ [e]
    ∧ ((PersistentConsumer.publish s e now wk).1).last_flush = s.last_flush
    ∧ ((PersistentConsumer.publish s e now wk).1).batch_size = s.batch_size
    ∧ ((PersistentConsumer.publish s e now wk).1).flush_interval = s.flush_interval := by
  unfold PersistentConsumer.publish
  dsimp only
  split
  · next hcond =>
    exfalso
    rcases hcond with h | h
    · simp only [List.length_append, List.length_cons, List.length_nil] at h
      omega
    · omega
  · exact ⟨rfl, rfl, rfl, rfl, rfl⟩

theorem pc_publish_flush_ok (s : PersistentConsumer.State) (e : AgentEvent)
    (now : Int)
    (htrig : s.write_buffer.length + 1 ≥ s.batch_size ∨ now - s.last_flush ≥ s.flush_interval) :
    (PersistentConsumer.publish s e now (fun _ => true)).2
        = PersistentConsumer.FlushOutcome.flushed
    ∧ ((PersistentConsumer.publish s e now (fun _ => true)).1).write_buffer = []
    ∧ ((PersistentConsumer.publish s e now (fun _ => true)).1).last_flush = now
    ∧ ((PersistentConsumer.publish s e now (fun _ => true)).1).batch_size = s.batch_size
    ∧ ((PersistentConsumer.publish s e now (fun _ => true)).1).flush_interval
        = s.flush_interval := by
  unfold PersistentConsumer.publish PersistentConsumer.flush_to_disk
  dsimp only
  split
  · split
    · next hemp => exact absurd hemp (by simp)
    · dsimp only
      split
      · exact ⟨rfl, rfl, rfl, rfl, rfl⟩
      · next hall => exact absurd (by simp) hall
  · next hcond =>
    exfalso
    apply hcond
    rcases htrig with h | h
    · left
      simp only [List.length_append, List.length_cons, List.length_nil]
      omega
    · right
      exact h

/-- C4: with `batch_size = 2` and all three publishes landing inside the
flush interval (measured from the latest flush), publishing three events
performs exactly one automatic flush, triggered during the second publish
when the pending buffer reaches the batch threshold, and after the third
publish exactly the third event remains in the pending write buffer. -/
theorem c4_batch_of_two_flushes_once (m : Nat) (fi t0 t1 t2 t3 : Int)
    (e1 e2 e3 : AgentEvent)
    (h1 : t1 - t0 < fi) (h2 : t2 - t0 < fi) (h3 : t3 - t2 < fi) :
    (PersistentConsumer.publishAll (PersistentConsumer.init m 2 fi t0)
        [(e1, t1, fun _ => true), (e2, t2, fun _ => true), (e3, t3, fun _ => true)]).2
      = [PersistentConsumer.FlushOutcome.noFlush,
         PersistentConsumer.FlushOutcome.flushed,
         PersistentConsumer.FlushOutcome.noFlush]
    ∧ ((PersistentConsumer.publishAll (PersistentConsumer.init m 2 fi t0)
        [(e1, t1, fun _ => true), (e2, t2, fun _ => true), (e3, t3, fun _ => true)]).1).write_buffer
      = [e3] := by
  obtain ⟨o1, b1, l1, bs1, fi1⟩ :=
    pc_publish_noFlush (PersistentConsumer.init m 2 fi t0) e1 t1 (fun _ => true)
      (by norm_num [PersistentConsumer.init]) h1
  obtain ⟨o2, b2, l2, bs2, fi2⟩ :=
    pc_publish_flush_ok
      ((PersistentConsumer.publish (PersistentConsumer.init m 2 fi t0) e1 t1
        (fun _ => true)).1) e2 t2
      (by
        rw [b1, bs1]
        left
        norm_num [PersistentConsumer.init])
  obtain ⟨o3, b3, l3, bs3, fi3⟩ :=
    pc_publish_noFlush
      ((PersistentConsumer.publish
        ((PersistentConsumer.publish (PersistentConsumer.init m 2 fi t0) e1 t1
          (fun _ => true)).1) e2 t2 (fun _ => true)).1) e3 t3 (fun _ => true)
      (by
        rw [b2, bs2, bs1]
        norm_num [PersistentConsumer.init])
      (by
        rw [l2, fi2, fi1]
        have : (PersistentConsumer.init m 2 fi t0).flush_interval = fi := rfl
        rw [this]
        exact h3)
  simp only [PersistentConsumer.publishAll]
  refine ⟨?_, ?_⟩
  · rw [o1, o2, o3]
  · rw [b3, b2]
    simp

theorem c4_witness :
    (PersistentConsumer.publishAll (PersistentConsumer.init 1000 2 10 0)
        [({ run_id := "r1", seq := 1, timestamp := "ta", agent := "ag",
            execution_record := defaultRecord }, 1, fun _ => true),
         ({ run_id := "r1", seq := 2, timestamp := "tb", agent := "ag",
            execution_record := defaultRecord }, 2, fun _ => true),
         ({ run_id := "r1", seq := 3, timestamp := "tc", agent := "ag",
            execution_record := defaultRecord }, 3, fun _ => true)]).2
      = [PersistentConsumer.FlushOutcome.noFlush,
         PersistentConsumer.FlushOutcome.flushed,
         PersistentConsumer.FlushOutcome.noFlush]
    ∧ ((PersistentConsumer.publishAll (PersistentConsumer.init 1000 2 10 0)
        [({ run_id := "r1", seq := 1, timestamp := "ta", agent := "ag",
            execution_record := defaultRecord }, 1, fun _ => true),
         ({ run_id := "r1", seq := 2, timestamp := "tb", agent := "ag",
            execution_record := defaultRecord }, 2, fun _ => true),
         ({ run_id := "r1", seq := 3, timestamp := "tc", agent := "ag",
            execution_record := defaultRecord }, 3, fun _ => true)]).1).write_buffer
      = [{ run_id := "r1", seq := 3, timestamp := "tc", agent := "ag",
           execution_record := defaultRecord }] :=
  c4_batch_of_two_flushes_once 1000 10 0 1 2 3 _ _ _
    (by norm_num) (by norm_num) (by norm_num)

/-- C1 (counterexample): with pending entries for runs "a" and "b" and the
write for "a" raising, `_flush_to_disk` does *not* clear the pending buffer
and does *not* reset the flush timer — `asyncio.gather` propagates the
failure before the last two statements run — even though run "b"'s entries
are still written to its file in that same cycle.  This refutes the
"regardless of the per-run write outcomes" half of the claim. -/
theorem c1_flush_counterexample :
    ((PersistentConsumer.flush_to_disk
        { PersistentConsumer.init 1000 100 10 0 with
          write_buffer :=
            [{ run_id := "a", seq := 1, timestamp := "ta", agent := "ag",
               execution_record := defaultRecord },
             { run_id := "b", seq := 1, timestamp := "tb", agent := "ag",
               execution_record := defaultRecord }] }
        (fun r => r == "b") 5).1).write_buffer
      = [{ run_id := "a", seq := 1, timestamp := "ta", agent := "ag",
           execution_record := defaultRecord },
         { run_id := "b", seq := 1, timestamp := "tb", agent := "ag",
           execution_record := defaultRecord }]
    ∧ ((PersistentConsumer.flush_to_disk
        { PersistentConsumer.init 1000 100 10 0 with
          write_buffer :=
            [{ run_id := "a", seq := 1, timestamp := "ta", agent := "ag",
               execution_record := defaultRecord },
             { run_id := "b", seq := 1, timestamp := "tb", agent := "ag",
               execution_record := defaultRecord }] }
        (fun r => r == "b") 5).1).last_flush = 0
    ∧ (PersistentConsumer.flush_to_disk
        { PersistentConsumer.init 1000 100 10 0 with
          write_buffer :=
            [{ run_id := "a", seq := 1, timestamp := "ta", agent := "ag",
               execution_record := defaultRecord },
             { run_id := "b", seq := 1, timestamp := "tb", agent := "ag",
               execution_record := defaultRecord }] }
        (fun r => r == "b") 5).2 = false
    ∧ ((PersistentConsumer.flush_to_disk
        { PersistentConsumer.init 1000 100 10 0 with
          write_buffer :=
            [{ run_id := "a", seq := 1, timestamp := "ta", agent := "ag",
               execution_record := defaultRecord },
             { run_id := "b", seq := 1, timestamp := "tb", agent := "ag",
               execution_record := defaultRecord }] }
        (fun r => r == "b") 5).1).disk "b"
      = some [PersistentConsumer.RawLine.valid
          { run_id := "b", seq := 1, timestamp := "tb", agent := "ag",
            execution_record := defaultRecord }] := by
  refine ⟨?_, ?_, ?_, ?_⟩ <;> decide

/-- C1 (amended): `_flush_to_disk` attempts every run's write independently,
so a disk-write failure for one run id does not prevent the pending entries
of other run ids from being written in that same flush cycle; but the
pending buffer is cleared and the flush timer reset only when *every*
per-run write succeeds — on any write failure the buffer and timer are left
unchanged and the flush raises (the failure propagating out of
`asyncio.gather`). -/
theorem c1_flush_amended (s : PersistentConsumer.State) (wk : String → Bool)
    (now : Int) :
    (∀ r ∈ (s.write_buffer.map (fun e => e.run_id)).dedup, wk r = true →
        ((PersistentConsumer.flush_to_disk s wk now).1).disk r
          = some ((s.disk r).getD [] ++
              (s.write_buffer.filter (fun e => e.run_id = r)).map
                PersistentConsumer.RawLine.valid))
    ∧ ((PersistentConsumer.flush_to_disk s wk now).2 = true →
        ((PersistentConsumer.flush_to_disk s wk now).1).write_buffer = []
        ∧ (s.write_buffer = [] ∨
            ((PersistentConsumer.flush_to_disk s wk now).1).last_flush = now))
    ∧ ((PersistentConsumer.flush_to_disk s wk now).2 = false →
        ((PersistentConsumer.flush_to_disk s wk now).1).write_buffer = s.write_buffer
        ∧ ((PersistentConsumer.flush_to_disk s wk now).1).last_flush = s.last_flush)
    ∧ ((PersistentConsumer.flush_to_disk s wk now).2 = false ↔
        s.write_buffer ≠ []
        ∧ ¬ ((s.write_buffer.map (fun e => e.run_id)).dedup.all wk = true)) := by
  unfold PersistentConsumer.flush_to_disk
  by_cases hemp : s.write_buffer = []
  · rw [if_pos hemp]
    refine ⟨?_, ?_, ?_, ?_⟩
    · intro r hr _
      rw [hemp] at hr
      simp at hr
    · intro _
      exact ⟨hemp, Or.inl hemp⟩
    · intro h
      simp at h
    · constructor
      · intro h
        simp at h
      · rintro ⟨hne, -⟩
        exact absurd hemp hne
  · rw [if_neg hemp]
    dsimp only
    split
    · next hall =>
      refine ⟨?_, ?_, ?_, ?_⟩
      · intro r hr hwk
        dsimp only
        rw [if_pos ⟨hr, hwk⟩]
      · intro _
        exact ⟨rfl, Or.inr rfl⟩
      · intro h
        simp at h
      · constructor
        · intro h
          simp at h
        · rintro ⟨-, hnall⟩
          exact absurd hall hnall
    · next hall =>
      refine ⟨?_, ?_, ?_, ?_⟩
      · intro r hr hwk
        dsimp only
        rw [if_pos ⟨hr, hwk⟩]
      · intro h
        simp at h
      · intro _
        exact ⟨rfl, rfl⟩
      · exact ⟨fun _ => ⟨hemp, hall⟩, fun _ => rfl⟩

theorem c1_amended_witness :
    ((PersistentConsumer.flush_to_disk
        { PersistentConsumer.init 1000 100 10 0 with
          write_buffer :=
            [{ run_id := "a", seq := 2, timestamp := "ta", agent := "ag",
               execution_record := defaultRecord },
             { run_id := "b", seq := 2, timestamp := "tb", agent := "ag",
               execution_record := defaultRecord }] }
        (fun r => r == "b") 7).1).disk "b"
      = some (((({ PersistentConsumer.init 1000 100 10 0 with
          write_buffer :=
            [{ run_id := "a", seq := 2, timestamp := "ta", agent := "ag",
               execution_record := defaultRecord },
             { run_id := "b", seq := 2, timestamp := "tb", agent := "ag",
               execution_record := defaultRecord }] } : PersistentConsumer.State).disk "b").getD [])
          ++ ([{ run_id := "a", seq := 2, timestamp := "ta", agent := "ag",
                 execution_record := defaultRecord },
               { run_id := "b", seq := 2, timestamp := "tb", agent := "ag",
                 execution_record := defaultRecord }].filter
                (fun e => e.run_id = "b")).map PersistentConsumer.RawLine.valid)
    ∧ ((PersistentConsumer.flush_to_disk
        { PersistentConsumer.init 1000 100 10 0 with
          write_buffer :=
            [{ run_id := "a", seq := 2, timestamp := "ta", agent := "ag",
               execution_record := defaultRecord },
             { run_id := "b", seq := 2, timestamp := "tb", agent := "ag",
               execution_record := defaultRecord }] }
        (fun r => r == "b") 7).1).write_buffer
      = ({ PersistentConsumer.init 1000 100 10 0 with
          write_buffer :=
            [{ run_id := "a", seq := 2, timestamp := "ta", agent := "ag",
               execution_record := defaultRecord },
             { run_id := "b", seq := 2, timestamp := "tb", agent := "ag",
               execution_record := defaultRecord }] } : PersistentConsumer.State).write_buffer :=
  ⟨(c1_flush_amended _ (fun r => r == "b") 7).1 "b" (by decide) rfl,
   ((c1_flush_amended _ (fun r => r == "b") 7).2.2.1 (by decide)).1⟩

theorem lastN_of_le (cap : Nat) (xs : List AgentEvent) (h : xs.length ≤ cap) :
    lastN cap xs = xs := by
  unfold lastN
  have hz : xs.length - cap = 0 := by omega
  rw [hz, List.drop_zero]

theorem lastN_append (cap : Nat) (xs ys : List AgentEvent) :
    lastN cap (lastN cap xs ++ ys) = lastN cap (xs ++ ys) := by
  rcases le_or_lt xs.length cap with h | h
  · rw [lastN_of_le cap xs h]
  · unfold lastN
    rw [List.drop_append_eq_append_drop, List.drop_append_eq_append_drop,
        List.drop_drop]
    have hA : (xs.drop (xs.length - cap)).length = cap := by
      rw [List.length_drop]
      omega
    rw [List.length_append, List.length_append, hA]
    have e1 : xs.length - cap + (cap + ys.length - cap)
        = xs.length + ys.length - cap := by omega
    have e2 : cap + ys.length - cap - cap
        = xs.length + ys.length - cap - xs.length := by omega
    rw [e1, e2]

theorem foldl_dequeAppend (cap : Nat) (evs : List AgentEvent) :
    ∀ q : List AgentEvent,
      evs.foldl (dequeAppend cap) (lastN cap q) = lastN cap (q ++ evs) := by
  induction evs with
  | nil =>
    intro q
    simp [List.foldl_nil]
  | cons e rest ih =>
    intro q
    have hstep : dequeAppend cap (lastN cap q) e = lastN cap (q ++ [e]) :=
      lastN_append cap q [e]
    calc (e :: rest).foldl (dequeAppend cap) (lastN cap q)
        = rest.foldl (dequeAppend cap) (lastN cap (q ++ [e])) := by
          rw [List.foldl_cons, hstep]
      _ = lastN cap ((q ++ [e]) ++ rest) := ih (q ++ [e])
      _ = lastN cap (q ++ e :: rest) := by
          rw [List.append_assoc]
          rfl

theorem vc_publishAll_state (evs : List AgentEvent) :
    ∀ (s : VirtualConsumer.State) (run : String), (∀ e ∈ evs, e.run_id = run) →
      (((VirtualConsumer.publishAll s evs).events run).getD []
          = evs.foldl (dequeAppend s.max_per_run) ((s.events run).getD []))
      ∧ (VirtualConsumer.publishAll s evs).max_per_run = s.max_per_run := by
  induction evs with
  | nil =>
    intro s run _
    exact ⟨rfl, rfl⟩
  | cons e rest ih =>
    intro s run hrun
    have he : e.run_id = run := hrun e (List.mem_cons_self e rest)
    have hpub : ((VirtualConsumer.publish s e).1).events run
        = some (dequeAppend s.max_per_run ((s.events run).getD []) e) := by
      simp [VirtualConsumer.publish, he]
    have hcap : ((VirtualConsumer.publish s e).1).max_per_run = s.max_per_run := rfl
    have hrest : ∀ x ∈ rest, x.run_id = run := fun x hx =>
      hrun x (List.mem_cons_of_mem e hx)
    have hall : VirtualConsumer.publishAll s (e :: rest)
        = VirtualConsumer.publishAll ((VirtualConsumer.publish s e).1) rest := rfl
    obtain ⟨ih1, ih2⟩ := ih ((VirtualConsumer.publish s e).1) run hrest
    constructor
    · rw [hall, ih1, hcap, hpub]
      rfl
    · rw [hall, ih2, hcap]

/-- C5: for a `VirtualConsumer` with capacity `C`, after publishing `C + k`
events for one run, `get_events(run, 0)` returns at most `C` events, namely
the filter of the `C` most recently published ones (and exactly those `C`
events whenever the published `seq` values are positive, as emitted events'
are); the `k` oldest entries have been silently evicted, with no error. -/
theorem c5_ring_eviction (C k : Nat) (run : String) (evs : List AgentEvent)
    (hlen : evs.length = C + k) (hrun : ∀ e ∈ evs, e.run_id = run) :
    VirtualConsumer.get_events
        (VirtualConsumer.publishAll (VirtualConsumer.init C) evs) run 0
      = (evs.drop k).filter (fun e => e.seq > 0)
    ∧ (VirtualConsumer.get_events
        (VirtualConsumer.publishAll (VirtualConsumer.init C) evs) run 0).length ≤ C
    ∧ ((∀ e ∈ evs, 0 < e.seq) →
        VirtualConsumer.get_events
            (VirtualConsumer.publishAll (VirtualConsumer.init C) evs) run 0
          = evs.drop k) := by
  obtain ⟨h1, -⟩ := vc_publishAll_state evs (VirtualConsumer.init C) run hrun
  have hQ : (((VirtualConsumer.publishAll (VirtualConsumer.init C) evs).events run).getD [])
      = evs.drop k := by
    rw [h1]
    have hinit : (((VirtualConsumer.init C).events run).getD []) = lastN C [] := by
      simp [VirtualConsumer.init, lastN]
    have hcap : (VirtualConsumer.init C).max_per_run = C := rfl
    rw [hinit, hcap, foldl_dequeAppend]
    unfold lastN
    rw [List.nil_append]
    rw [hlen]
    congr 1
    omega
  have hget : VirtualConsumer.get_events
      (VirtualConsumer.publishAll (VirtualConsumer.init C) evs) run 0
      = (evs.drop k).filter (fun e => e.seq > 0) := by
    unfold VirtualConsumer.get_events
    rw [hQ]
  refine ⟨hget, ?_, ?_⟩
  · rw [hget]
    calc ((evs.drop k).filter (fun e => e.seq > 0)).length
        ≤ (evs.drop k).length := List.length_filter_le _ _
      _ ≤ C := by
          rw [List.length_drop, hlen]
          omega
  · intro hpos
    rw [hget]
    apply List.filter_eq_self.mpr
    intro e he
    have : e ∈ evs := List.mem_of_mem_drop he
    simpa using hpos e this

theorem read_events_sync_seq_gt (lines : List PersistentConsumer.RawLine)
    (a : Int) (e : AgentEvent)
    (he : e ∈ PersistentConsumer.read_events_sync lines a) : a < e.seq := by
  unfold PersistentConsumer.read_events_sync at he
  rw [List.mem_filterMap] at he
  obtain ⟨l, -, hl⟩ := he
  cases l with
  | valid e' =>
    simp only [PersistentConsumer.parse_line] at hl
    by_cases hgt : e'.seq > a
    · rw [if_pos hgt] at hl
      cases hl
      exact hgt
    · rw [if_neg hgt] at hl
      cases hl
  | malformed str =>
    simp [PersistentConsumer.parse_line] at hl

theorem load_from_disk_seq_gt (s : PersistentConsumer.State) (run : String)
    (a : Int) (e : AgentEvent)
    (he : e ∈ PersistentConsumer.load_from_disk s run a) : a < e.seq := by
  unfold PersistentConsumer.load_from_disk at he
  cases hd : s.disk run with
  | none => rw [hd] at he; simp at he
  | some lines => rw [hd] at he; exact read_events_sync_seq_gt lines a e he

theorem mem_seqKeys (es : List AgentEvent) (k : Int) :
    k ∈ PersistentConsumer.seqKeys es ↔ ∃ e ∈ es, e.seq = k := by
  unfold PersistentConsumer.seqKeys
  rw [List.mem_dedup, List.mem_map]

theorem seqDictGet_spec (es : List AgentEvent) (k : Int)
    (hk : ∃ e ∈ es, e.seq = k) :
    (PersistentConsumer.seqDictGet es k).seq = k
    ∧ PersistentConsumer.seqDictGet es k ∈ es := by
  unfold PersistentConsumer.seqDictGet
  obtain ⟨e, he, hek⟩ := hk
  have hfil : e ∈ es.filter (fun x => x.seq = k) :=
    List.mem_filter.mpr ⟨he, by simp [hek]⟩
  cases hlast : (es.filter (fun x => x.seq = k)).getLast? with
  | none =>
    exact absurd (List.getLast?_eq_none_iff.mp hlast) (List.ne_nil_of_mem hfil)
  | some g =>
    have hg := List.mem_filter.mp (List.mem_of_mem_getLast? hlast)
    constructor
    · simp only [hlast, Option.getD_some]
      simpa using hg.2
    · simp only [hlast, Option.getD_some]
      exact hg.1

theorem seqDictGet_right_wins (ds ms : List AgentEvent) (k : Int)
    (hm : ∃ m ∈ ms, m.seq = k) :
    PersistentConsumer.seqDictGet (ds ++ ms) k ∈ ms := by
  unfold PersistentConsumer.seqDictGet
  obtain ⟨m, hmem, hmk⟩ := hm
  have hfil : m ∈ ms.filter (fun x => x.seq = k) :=
    List.mem_filter.mpr ⟨hmem, by simp [hmk]⟩
  rw [List.filter_append _ _, List.getLast?_append]
  cases hlast : (ms.filter (fun x => x.seq = k)).getLast? with
  | none =>
    exact absurd (List.getLast?_eq_none_iff.mp hlast) (List.ne_nil_of_mem hfil)
  | some g =>
    have hg := List.mem_filter.mp (List.mem_of_mem_getLast? hlast)
    simpa using hg.1

theorem pc_get_events_cache_eq (s : PersistentConsumer.State) (run : String)
    (a : Int) (e0 : AgentEvent)
    (hh : ((s.memory_events run).filter (fun e => e.seq > a)).head? = some e0)
    (hle : e0.seq ≤ a + 1) :
    PersistentConsumer.get_events s run a
      = (s.memory_events run).filter (fun e => e.seq > a) := by
  unfold PersistentConsumer.get_events
  dsimp only
  split
  · rfl
  · next hfalse =>
    exfalso
    apply hfalse
    rw [hh]
    simpa using hle

theorem pc_get_events_merge_eq (s : PersistentConsumer.State) (run : String)
    (a : Int)
    (hnc : ∀ e0, ((s.memory_events run).filter (fun e => e.seq > a)).head? = some e0 →
        a + 1 < e0.seq) :
    PersistentConsumer.get_events s run a
      = (((PersistentConsumer.seqKeys
            (PersistentConsumer.load_from_disk s run a
              ++ (s.memory_events run).filter (fun e => e.seq > a))).insertionSort
            (· ≤ ·)).filter (fun k => k > a)).map
          (PersistentConsumer.seqDictGet
            (PersistentConsumer.load_from_disk s run a
              ++ (s.memory_events run).filter (fun e => e.seq > a))) := by
  unfold PersistentConsumer.get_events
  dsimp only
  split
  · next htrue =>
    exfalso
    cases hh : ((s.memory_events run).filter (fun e => e.seq > a)).head? with
    | none => rw [hh] at htrue; simp at htrue
    | some e0 =>
      rw [hh] at htrue
      simp only [decide_eq_true_eq] at htrue
      have := hnc e0 hh
      omega
  · rfl

/-- C3: `PersistentConsumer.get_events(run_id, after_seq)` is two-tier: when
the filtered memory cache is non-empty and its first (oldest) entry has
`seq ≤ after_seq + 1`, the cache entries with `seq > after_seq` are returned
alone; otherwise the on-disk log is replayed and merged with the cache
keyed by `seq`, and the result is sorted strictly ascending by `seq` (hence
no duplicate `seq`), contains only events with `seq > after_seq`, consists
exactly of merged events — one per `seq` value occurring in the merged
pool — and on any `seq` conflict the cache entry wins over the disk
entry. -/
theorem c3_get_events_two_tier (s : PersistentConsumer.State) (run : String)
    (a : Int) :
    (∀ e0, ((s.memory_events run).filter (fun e => e.seq > a)).head? = some e0 →
        e0.seq ≤ a + 1 →
        PersistentConsumer.get_events s run a
          = (s.memory_events run).filter (fun e => e.seq > a))
    ∧ ((∀ e0, ((s.memory_events run).filter (fun e => e.seq > a)).head? = some e0 →
          a + 1 < e0.seq) →
        List.Pairwise (fun x y => x.seq < y.seq)
            (PersistentConsumer.get_events s run a)
        ∧ (∀ e ∈ PersistentConsumer.get_events s run a, a < e.seq)
        ∧ (∀ e ∈ PersistentConsumer.get_events s run a,
            e ∈ PersistentConsumer.load_from_disk s run a
                ++ (s.memory_events run).filter (fun e => e.seq > a))
        ∧ (∀ k : Int,
            (∃ e ∈ PersistentConsumer.get_events s run a, e.seq = k)
              ↔ ∃ e ∈ PersistentConsumer.load_from_disk s run a
                    ++ (s.memory_events run).filter (fun e => e.seq > a), e.seq = k)
        ∧ (∀ e ∈ PersistentConsumer.get_events s run a,
            (∃ m ∈ (s.memory_events run).filter (fun e => e.seq > a), m.seq = e.seq) →
            e ∈ (s.memory_events run).filter (fun e => e.seq > a))) := by
  constructor
  · intro e0 hh hle
    exact pc_get_events_cache_eq s run a e0 hh hle
  · intro hnc
    have hEq := pc_get_events_merge_eq s run a hnc
    set D := PersistentConsumer.load_from_disk s run a with hDdef
    set M := (s.memory_events run).filter (fun e => e.seq > a) with hMdef
    set L := D ++ M with hLdef
    have hLgt : ∀ e ∈ L, a < e.seq := by
      intro e he
      rcases List.mem_append.mp he with h | h
      · exact load_from_disk_seq_gt s run a e h
      · have := List.mem_filter.mp (hMdef ▸ h)
        simpa using this.2
    have hperm := List.perm_insertionSort (· ≤ ·) (PersistentConsumer.seqKeys L)
    have hsorted : List.Pairwise (· ≤ ·)
        ((PersistentConsumer.seqKeys L).insertionSort (· ≤ ·)) :=
      List.sorted_insertionSort _ _
    have hsnodup : ((PersistentConsumer.seqKeys L).insertionSort (· ≤ ·)).Nodup :=
      hperm.nodup_iff.mpr (List.nodup_dedup _)
    have hslt : List.Pairwise (· < ·)
        ((PersistentConsumer.seqKeys L).insertionSort (· ≤ ·)) :=
      (hsorted.and hsnodup).imp (fun h => lt_of_le_of_ne h.1 h.2)
    have hkmem : ∀ k ∈ ((PersistentConsumer.seqKeys L).insertionSort (· ≤ ·)).filter
        (fun k => k > a),
        (PersistentConsumer.seqDictGet L k).seq = k
          ∧ PersistentConsumer.seqDictGet L k ∈ L := by
      intro k hk
      have hk1 : k ∈ PersistentConsumer.seqKeys L :=
        hperm.mem_iff.mp (List.mem_of_mem_filter hk)
      exact seqDictGet_spec L k ((mem_seqKeys L k).mp hk1)
    refine ⟨?_, ?_, ?_, ?_, ?_⟩
    · rw [hEq]
      apply List.pairwise_map.mpr
      apply List.Pairwise.imp_of_mem _ (hslt.filter (fun k => k > a))
      intro k1 k2 h1 h2 hlt
      rw [(hkmem k1 h1).1, (hkmem k2 h2).1]
      exact hlt
    · rw [hEq]
      intro e he
      obtain ⟨k, hk, rfl⟩ := List.mem_map.mp he
      rw [(hkmem k hk).1]
      have hk2 := (List.mem_filter.mp hk).2
      simpa using hk2
    · rw [hEq]
      intro e he
      obtain ⟨k, hk, rfl⟩ := List.mem_map.mp he
      exact (hkmem k hk).2
    · intro k
      rw [hEq]
      constructor
      · rintro ⟨e, he, rfl⟩
        obtain ⟨k', hk', rfl⟩ := List.mem_map.mp he
        exact ⟨_, (hkmem k' hk').2, rfl⟩
      · rintro ⟨e, he, rfl⟩
        have hk1 : e.seq ∈ PersistentConsumer.seqKeys L :=
          (mem_seqKeys L e.seq).mpr ⟨e, he, rfl⟩
        have hk2 : e.seq ∈ (PersistentConsumer.seqKeys L).insertionSort (· ≤ ·) :=
          hperm.mem_iff.mpr hk1
        have hk3 : e.seq ∈ ((PersistentConsumer.seqKeys L).insertionSort (· ≤ ·)).filter
            (fun k => k > a) :=
          List.mem_filter.mpr ⟨hk2, by simpa using hLgt e he⟩
        exact ⟨PersistentConsumer.seqDictGet L e.seq,
          List.mem_map_of_mem _ hk3, (hkmem _ hk3).1⟩
    · rw [hEq]
      intro e he hm
      obtain ⟨k, hk, rfl⟩ := List.mem_map.mp he
      rw [(hkmem k hk).1] at hm
      exact seqDictGet_right_wins D M k hm

theorem c3_witness :
    (List.Pairwise (fun x y => x.seq < y.seq)
      (PersistentConsumer.get_events
        { PersistentConsumer.init 1000 100 10 0 with
          memory_events := fun r =>
            if r = "r" then
              [{ run_id := "r", seq := 3, timestamp := "t3", agent := "ag",
                 execution_record := defaultRecord }]
            else []
          disk := fun r =>
            if r = "r" then
              some [PersistentConsumer.RawLine.valid
                      { run_id := "r", seq := 1, timestamp := "t1", agent := "ag",
                        execution_record := defaultRecord },
                    PersistentConsumer.RawLine.malformed "garbage",
                    PersistentConsumer.RawLine.valid
                      { run_id := "r", seq := 2, timestamp := "t2", agent := "ag",
                        execution_record := defaultRecord }]
            else none } "r" 0)
    ∧ (∀ e ∈ PersistentConsumer.get_events
        { PersistentConsumer.init 1000 100 10 0 with
          memory_events := fun r =>
            if r = "r" then
              [{ run_id := "r", seq := 3, timestamp := "t3", agent := "ag",
                 execution_record := defaultRecord }]
            else []
          disk := fun r =>
            if r = "r" then
              some [PersistentConsumer.RawLine.valid
                      { run_id := "r", seq := 1, timestamp := "t1", agent := "ag",
                        execution_record := defaultRecord },
                    PersistentConsumer.RawLine.malformed "garbage",
                    PersistentConsumer.RawLine.valid
                      { run_id := "r", seq := 2, timestamp := "t2", agent := "ag",
                        execution_record := defaultRecord }]
            else none } "r" 0, (0 : Int) < e.seq))
    ∧ PersistentConsumer.get_events
        { PersistentConsumer.init 1000 100 10 0 with
          memory_events := fun r =>
            if r = "r" then
              [{ run_id := "r", seq := 1, timestamp := "t1", agent := "ag",
                 execution_record := defaultRecord },
               { run_id := "r", seq := 2, timestamp := "t2", agent := "ag",
                 execution_record := defaultRecord }]
            else [] } "r" 0
      = ([{ run_id := "r", seq := 1, timestamp := "t1", agent := "ag",
            execution_record := defaultRecord },
          { run_id := "r", seq := 2, timestamp := "t2", agent := "ag",
            execution_record := defaultRecord }].filter (fun e => e.seq > 0)) :=
  have hmerge := (c3_get_events_two_tier
    { PersistentConsumer.init 1000 100 10 0 with
      memory_events := fun r =>
        if r = "r" then
          [{ run_id := "r", seq := 3, timestamp := "t3", agent := "ag",
             execution_record := defaultRecord }]
        else []
      disk := fun r =>
        if r = "r" then
          some [PersistentConsumer.RawLine.valid
                  { run_id := "r", seq := 1, timestamp := "t1", agent := "ag",
                    execution_record := defaultRecord },
                PersistentConsumer.RawLine.malformed "garbage",
                PersistentConsumer.RawLine.valid
                  { run_id := "r", seq := 2, timestamp := "t2", agent := "ag",
                    execution_record := defaultRecord }]
        else none } "r" 0).2 (by intro e0 h; cases h; decide)
  ⟨⟨hmerge.1, hmerge.2.1⟩,
   (c3_get_events_two_tier
    { PersistentConsumer.init 1000 100 10 0 with
      memory_events := fun r =>
        if r = "r" then
          [{ run_id := "r", seq := 1, timestamp := "t1", agent := "ag",
             execution_record := defaultRecord },
           { run_id := "r", seq := 2, timestamp := "t2", agent := "ag",
             execution_record := defaultRecord }]
        else [] } "r" 0).1
    { run_id := "r", seq := 1, timestamp := "t1", agent := "ag",
      execution_record := defaultRecord } (by decide) (by decide)⟩

theorem c5_witness :
    (VirtualConsumer.get_events
        (VirtualConsumer.publishAll (VirtualConsumer.init 2)
          [{ run_id := "r", seq := 1, timestamp := "t1", agent := "ag",
             execution_record := defaultRecord },
           { run_id := "r", seq := 2, timestamp := "t2", agent := "ag",
             execution_record := defaultRecord },
           { run_id := "r", seq := 3, timestamp := "t3", agent := "ag",
             execution_record := defaultRecord }]) "r" 0).length ≤ 2
    ∧ VirtualConsumer.get_events
        (VirtualConsumer.publishAll (VirtualConsumer.init 2)
          [{ run_id := "r", seq := 1, timestamp := "t1", agent := "ag",
             execution_record := defaultRecord },
           { run_id := "r", seq := 2, timestamp := "t2", agent := "ag",
             execution_record := defaultRecord },
           { run_id := "r", seq := 3, timestamp := "t3", agent := "ag",
             execution_record := defaultRecord }]) "r" 0
      = [{ run_id := "r", seq := 1, timestamp := "t1", agent := "ag",
           execution_record := defaultRecord },
         { run_id := "r", seq := 2, timestamp := "t2", agent := "ag",
           execution_record := defaultRecord },
         { run_id := "r", seq := 3, timestamp := "t3", agent := "ag",
           execution_record := defaultRecord }].drop 1 :=
  ⟨(c5_ring_eviction 2 1 "r" _ (by rfl) (by decide)).2.1,
   (c5_ring_eviction 2 1 "r" _ (by rfl) (by decide)).2.2 (by decide)⟩

theorem toAgentEvents_map_event (l : List AgentEvent) :
    PersistentConsumer.toAgentEvents (l.map PersistentConsumer.ParsedDict.event)
      = Except.ok l := by
  induction l with
  | nil => rfl
  | cons e rest ih =>
    simp [PersistentConsumer.toAgentEvents, ih]

theorem read_events_sync_full_benign (lines : List PersistentConsumer.RawLine)
    (a : Int) :
    PersistentConsumer.read_events_sync_full
        (lines.map PersistentConsumer.embedLine) a
      = Except.ok ((PersistentConsumer.read_events_sync lines a).map
          PersistentConsumer.ParsedDict.event) := by
  induction lines with
  | nil => rfl
  | cons l rest ih =>
    cases l with
    | valid e =>
      simp only [List.map_cons, PersistentConsumer.embedLine,
        PersistentConsumer.read_events_sync_full, ih]
      by_cases h : e.seq > a <;>
        simp [PersistentConsumer.read_events_sync, PersistentConsumer.parse_line, h]
    | malformed s =>
      simp only [List.map_cons, PersistentConsumer.embedLine,
        PersistentConsumer.read_events_sync_full, ih]
      simp [PersistentConsumer.read_events_sync, PersistentConsumer.parse_line]

theorem get_events_full_on_benign (s : PersistentConsumer.State) (run : String)
    (a : Int) :
    PersistentConsumer.get_events_full (s.memory_events run)
        ((s.disk run).map (fun ls => ls.map PersistentConsumer.embedLine)) a
      = Except.ok (PersistentConsumer.get_events s run a) := by
  unfold PersistentConsumer.get_events_full PersistentConsumer.get_events
  dsimp only
  split
  · rfl
  · cases hd : s.disk run with
    | none =>
      simp [PersistentConsumer.load_from_disk_full,
        PersistentConsumer.load_from_disk, hd, PersistentConsumer.toAgentEvents]
    | some lines =>
      simp [PersistentConsumer.load_from_disk_full,
        PersistentConsumer.load_from_disk, hd, read_events_sync_full_benign,
        toAgentEvents_map_event]

/-- C7 (counterexample): a malformed line *can* abort the historical read.
A line that is valid JSON but not a dict (e.g. the line `null`), or a dict
whose `seq` makes `int()` raise `TypeError`, raises out of
`_read_events_sync` — only `json.JSONDecodeError` and `ValueError` are
caught — and a JSON dict with a usable `seq` that is not a well-formed
event survives the read but makes `AgentEvent(**d)` raise a
`ValidationError` inside `get_events`.  Both abort paths are exhibited at
concrete inputs, refuting "never causes the historical read to abort or
return an error". -/
theorem c7_replay_counterexample :
    PersistentConsumer.read_events_sync_full
        [PersistentConsumer.DiskLine.event
           { run_id := "r", seq := 1, timestamp := "t1", agent := "ag",
             execution_record := defaultRecord },
         PersistentConsumer.DiskLine.readCrash "line-null"] 0
      = Except.error "line-null"
    ∧ PersistentConsumer.get_events_full []
        (some [PersistentConsumer.DiskLine.nonEvent 7 "dict-without-event-fields"]) 0
      = Except.error "dict-without-event-fields" := by
  constructor <;> rfl

/-- C7 (amended): each log line is parsed independently inside a per-line
handler that catches exactly `json.JSONDecodeError` and `ValueError`: a
line the handler catches (corrupted or truncated text, or a dict whose
`seq` fails `int()` with `ValueError`) is skipped, reading continues with
the next line, and such a line never changes the result of the read; on
files consisting only of well-formed serialized events and such skippable
lines — the only lines the system itself ever writes, truncation
included — the read never aborts and agrees with the total benign-fragment
reader.  However, a line raising an exception outside those two classes
(valid JSON that is not a dict, or a `seq` of a type `int()` rejects)
aborts the read at that line. -/
theorem c7_replay_amended :
    (∀ (xs ys : List PersistentConsumer.DiskLine) (str : String) (a : Int),
        PersistentConsumer.read_events_sync_full
            (xs ++ PersistentConsumer.DiskLine.skipped str :: ys) a
          = PersistentConsumer.read_events_sync_full (xs ++ ys) a)
    ∧ (∀ (lines : List PersistentConsumer.RawLine) (a : Int),
        PersistentConsumer.read_events_sync_full
            (lines.map PersistentConsumer.embedLine) a
          = Except.ok ((PersistentConsumer.read_events_sync lines a).map
              PersistentConsumer.ParsedDict.event))
    ∧ (∀ (xs ys : List PersistentConsumer.DiskLine) (str : String) (a : Int),
        (∀ s', PersistentConsumer.DiskLine.readCrash s' ∉ xs) →
        PersistentConsumer.read_events_sync_full
            (xs ++ PersistentConsumer.DiskLine.readCrash str :: ys) a
          = Except.error str) := by
  refine ⟨?_, read_events_sync_full_benign, ?_⟩
  · intro xs ys str a
    induction xs with
    | nil => rfl
    | cons l rest ih =>
      cases l with
      | event e =>
        simp only [List.cons_append, PersistentConsumer.read_events_sync_full,
          List.append_eq, ih]
      | skipped s =>
        simpa only [List.cons_append, PersistentConsumer.read_events_sync_full,
          List.append_eq] using ih
      | readCrash s => rfl
      | nonEvent k s =>
        simp only [List.cons_append, PersistentConsumer.read_events_sync_full,
          List.append_eq, ih]
  · intro xs ys str a hxs
    induction xs with
    | nil => rfl
    | cons l rest ih =>
      have hrest : ∀ s', PersistentConsumer.DiskLine.readCrash s' ∉ rest :=
        fun s' h => hxs s' (List.mem_cons_of_mem _ h)
      cases l with
      | event e =>
        simp only [List.cons_append, PersistentConsumer.read_events_sync_full,
          List.append_eq, ih hrest]
      | skipped s =>
        simpa only [List.cons_append, PersistentConsumer.read_events_sync_full,
          List.append_eq] using ih hrest
      | readCrash s => exact absurd (List.mem_cons_self _ _) (hxs s)
      | nonEvent k s =>
        simp only [List.cons_append, PersistentConsumer.read_events_sync_full,
          List.append_eq, ih hrest]

theorem c7_amended_witness :
    PersistentConsumer.read_events_sync_full
        [PersistentConsumer.DiskLine.event
           { run_id := "r", seq := 9, timestamp := "t9", agent := "ag",
             execution_record := defaultRecord },
         PersistentConsumer.DiskLine.readCrash "truncation-free-bad-line"] 5
      = Except.error "truncation-free-bad-line" :=
  c7_replay_amended.2.2
    [PersistentConsumer.DiskLine.event
       { run_id := "r", seq := 9, timestamp := "t9", agent := "ag",
         execution_record := defaultRecord }] [] "truncation-free-bad-line" 5
    (by intro s'; simp)
